import Mathlib

/-!
# Verification of the "who's the cone" voting application core

Shallow embedding of the functional core of the repository
(`src/database.py` and `src/main.py`): the relational data model
(Player, Game, Session, Vote plus the session-participants join),
the session lifecycle operations (`create_session`, `submit_vote`,
`delete_session`) and the scoring/aggregation computations of the
stats and player pages.

Modelling conventions:
* rows are structures over `Nat`/`String`; autoincrement primary keys
  are modelled with explicit `nextSessionId`/`nextVoteId` counters;
* `is_active` is an integer column in the source (1 = open, 0 = closed)
  and is kept as a `Nat` compared against 0, as the source does;
* SQLAlchemy queries become list filters/maps; `DISTINCT` becomes
  `List.dedup`; Python's stable `list.sort(key=..., reverse=True)`
  becomes `List.insertionSort` with the reflected (descending)
  relation, which is likewise a stable sort;
* dates are abstract `Nat` timestamps passed in by the caller
  (`datetime.now()` in the source).
-/

namespace WhosTheCone

/-- A row of the `players` table (`database.py`, class `Player`). -/
structure PlayerRow where
  id : Nat
  name : String
deriving DecidableEq, Repr

/-- A row of the `games` table (`database.py`, class `Game`). -/
structure GameRow where
  id : Nat
  name : String
deriving DecidableEq, Repr

/-- A row of the `sessions` table together with its
`session_participants` association rows (`database.py`, class
`Session`): participant player ids, kept in the order the
relationship yields them (database/query order). -/
structure SessionRow where
  id : Nat
  date : Nat
  gameId : Nat
  isActive : Nat
  participants : List Nat
deriving DecidableEq, Repr

/-- A row of the `votes` table (`database.py`, class `Vote`). -/
structure VoteRow where
  id : Nat
  sessionId : Nat
  voterId : Nat
  targetPlayerId : Nat
  rankScore : Nat
deriving DecidableEq, Repr

/-- The whole persistent store. -/
structure DB where
  players : List PlayerRow
  games : List GameRow
  sessions : List SessionRow
  votes : List VoteRow
  nextSessionId : Nat
  nextVoteId : Nat
deriving DecidableEq, Repr

/-- The seeded store produced by `database.py`'s `init_db`. -/
def initDB : DB :=
  { players := [⟨1, "Maor"⟩, ⟨2, "Alko"⟩, ⟨3, "Becker"⟩, ⟨4, "Regev"⟩]
    games := [⟨1, "FIFA"⟩, ⟨2, "Rainbow 6 Siege"⟩, ⟨3, "PUBG"⟩,
              ⟨4, "Call Of Duty"⟩, ⟨5, "Battlefield"⟩]
    sessions := []
    votes := []
    nextSessionId := 1
    nextVoteId := 1 }

/-- `db.get(GameSession, session_id)`: primary-key lookup. -/
def findSession (db : DB) (sid : Nat) : Option SessionRow :=
  db.sessions.find? (fun s => s.id == sid)

/-- Whether `session.game` resolves (the `game_id` foreign key hits a
`games` row); `not session.game` in the source is this test failing. -/
def gameExists (games : List GameRow) (gid : Nat) : Bool :=
  games.any (fun g => g.id == gid)

/-- The participant resolution of `create_session`:
`db.query(Player).filter(Player.id.in_(player_ids)).all()`, i.e. the
submitted ids that hit an existing `players` row, in table order. -/
def resolveParticipants (players : List PlayerRow) (playerIds : List Nat) : List Nat :=
  (players.filter (fun p => playerIds.contains p.id)).map (fun p => p.id)

/-- The `Session` row built by `create_session` (is_active defaults
to 1, date to "now"). -/
def createdSession (db : DB) (gameId : Nat) (playerIds : List Nat) (now : Nat) : SessionRow :=
  ⟨db.nextSessionId, now, gameId, 1, resolveParticipants db.players playerIds⟩

/-- `create_session` (`main.py`, lines 41–56): builds the session row,
resolves participants, inserts and commits; returns the new id. -/
def create_session (db : DB) (gameId : Nat) (playerIds : List Nat) (now : Nat) :
    DB × Nat :=
  let s := createdSession db gameId playerIds now
  ({ db with sessions := db.sessions ++ [s], nextSessionId := db.nextSessionId + 1 },
   s.id)

/-- Outcome of `submit_vote`, one constructor per exit path of the
handler (`main.py`, lines 71–110). -/
inductive SubmitResult where
  | notFound
  | alreadyClosed
  | duplicateVote
  | notAParticipant
  | ok
deriving DecidableEq, Repr

/-- The duplicate-ballot query of `submit_vote`:
`db.query(Vote).filter(Vote.session_id == session_id, Vote.voter_id == voter_id).first()`. -/
def hasVoted (votes : List VoteRow) (sid vid : Nat) : Bool :=
  votes.any (fun v => v.sessionId == sid && v.voterId == vid)

/-- The distinct voters of a session:
`{v[0] for v in db.query(Vote.voter_id).filter(Vote.session_id == session_id).distinct().all()}`. -/
def votersOf (votes : List VoteRow) (sid : Nat) : List Nat :=
  ((votes.filter (fun v => v.sessionId == sid)).map (fun v => v.voterId)).dedup

/-- The Vote rows inserted by one accepted ballot: for the `i`-th
(0-indexed) entry of `ranked_ids`, `score = num_players - index` where
`num_players = len(ranked_ids)` (`main.py`, lines 93–103).  Vote ids
follow the autoincrement counter. -/
def ballotVotes (sid vid : Nat) (rks : List Nat) (firstId : Nat) : List VoteRow :=
  rks.enum.map (fun p => ⟨firstId + p.1, sid, vid, p.2, rks.length - p.1⟩)

/-- The auto-close commit `session.is_active = 0` applied row-wise to
the session table (only the row with the submitted id changes). -/
def closeUpd (sid : Nat) (t : SessionRow) : SessionRow :=
  if t.id == sid then { t with isActive := 0 } else t

/-- The store after `submit_vote` takes the success path for session
`s`: ballot rows appended, then the auto-close check
`voter_ids >= set(participant_ids)` run on the new vote set
(`main.py`, lines 93–109). -/
def submitSuccessDB (db : DB) (sid vid : Nat) (rks : List Nat) (s : SessionRow) : DB :=
  let votes2 := db.votes ++ ballotVotes sid vid rks db.nextVoteId
  { db with
    sessions :=
      if s.participants.all (fun p => (votersOf votes2 sid).contains p) then
        db.sessions.map (closeUpd sid)
      else db.sessions
    votes := votes2
    nextVoteId := db.nextVoteId + rks.length }

/-- `submit_vote` (`main.py`, lines 71–110), with the redirect targets
abstracted into `SubmitResult`. -/
def submit_vote (db : DB) (sid vid : Nat) (rks : List Nat) : SubmitResult × DB :=
  match findSession db sid with
  | none => (.notFound, db)
  | some s =>
    if !gameExists db.games s.gameId then (.notFound, db)
    else if s.isActive == 0 then (.alreadyClosed, db)
    else if hasVoted db.votes sid vid then (.duplicateVote, db)
    else if !(s.participants.contains vid) then (.notAParticipant, db)
    else (.ok, submitSuccessDB db sid vid rks s)

/-- `delete_session` (`main.py`, lines 335–346): if present, delete the
session row; the `cascade="all, delete-orphan"` relationship
(`database.py`, line 38) removes its Vote rows with it. -/
def delete_session (db : DB) (sid : Nat) : DB :=
  match findSession db sid with
  | none => db
  | some _ =>
    { db with
      sessions := db.sessions.filter (fun s => s.id != sid)
      votes := db.votes.filter (fun v => v.sessionId != sid) }

/-! ## Stats page (`main.py`, lines 113–170) -/

/-- Descending-by-date relation used for
`order_by(GameSession.date.desc())`. -/
def dateDesc (a b : SessionRow) : Prop := b.date ≤ a.date

instance : DecidableRel dateDesc := fun a b => inferInstanceAs (Decidable (b.date ≤ a.date))

instance : IsTotal SessionRow dateDesc := ⟨fun a b => Nat.le_total b.date a.date⟩

instance : IsTrans SessionRow dateDesc := ⟨fun _ _ _ h h2 => Nat.le_trans h2 h⟩

/-- The session set of the stats/player pages: ordered newest first,
filtered by `game_id` when the filter is present — the filter is
applied to the session query, before any aggregation. -/
def filteredSessions (db : DB) (gid : Option Nat) : List SessionRow :=
  match gid with
  | some g => (db.sessions.filter (fun s => s.gameId == g)).insertionSort dateDesc
  | none => db.sessions.insertionSort dateDesc

/-- One leaderboard entry (the dict built per player in `stats_page`). -/
structure LeaderRow where
  id : Nat
  name : String
  score : Nat
  sessionsParticipated : Nat
  coneCount : Nat
  kingCount : Nat
deriving DecidableEq, Repr

/-- `db.query(func.sum(Vote.rank_score)).filter(target == p, session_id
in session_ids).scalar() or 0`. -/
def voteScoreSum (votes : List VoteRow) (pid : Nat) (sids : List Nat) : Nat :=
  ((votes.filter (fun v => v.targetPlayerId == pid && sids.contains v.sessionId)).map
    (fun v => v.rankScore)).sum

/-- Count of rank_score == 1 votes for a player over a session-id set. -/
def coneCountIn (votes : List VoteRow) (pid : Nat) (sids : List Nat) : Nat :=
  (votes.filter (fun v =>
    v.targetPlayerId == pid && v.rankScore == 1 && sids.contains v.sessionId)).length

/-- Count of votes for a player in one session whose rank_score equals
that session's participant count (the per-session "king" test). -/
def kingCountRow (votes : List VoteRow) (pid : Nat) (s : SessionRow) : Nat :=
  (votes.filter (fun v =>
    v.targetPlayerId == pid && v.sessionId == s.id &&
      v.rankScore == s.participants.length)).length

/-- The per-player leaderboard computation of `stats_page` (lines
128–161), including the `if session_ids:` guard of the source. -/
def leaderRowFor (db : DB) (sessions : List SessionRow) (p : PlayerRow) : LeaderRow :=
  let sids := sessions.map (fun s => s.id)
  let total := if sids.isEmpty then 0 else voteScoreSum db.votes p.id sids
  let cone := if sids.isEmpty then 0 else coneCountIn db.votes p.id sids
  let king := (sessions.map (fun s => kingCountRow db.votes p.id s)).sum
  let sp := (sessions.filter (fun s => s.participants.contains p.id)).length
  ⟨p.id, p.name, total, sp, cone, king⟩

/-- Descending-by-score relation used for
`leaderboard.sort(key=lambda x: x["score"], reverse=True)`. -/
def scoreDesc (a b : LeaderRow) : Prop := b.score ≤ a.score

instance : DecidableRel scoreDesc := fun a b => inferInstanceAs (Decidable (b.score ≤ a.score))

instance : IsTotal LeaderRow scoreDesc := ⟨fun a b => Nat.le_total b.score a.score⟩

instance : IsTrans LeaderRow scoreDesc := ⟨fun _ _ _ h h2 => Nat.le_trans h2 h⟩

/-- The sorted leaderboard of `stats_page`: one row per player (player
table order), stable-sorted by score descending. -/
def stats_leaderboard (db : DB) (gid : Option Nat) : List LeaderRow :=
  ((db.players.map (leaderRowFor db (filteredSessions db gid)))).insertionSort scoreDesc

/-! ## Player page rank-in-session (`main.py`, lines 280–293) -/

/-- A player's summed score inside one session. -/
def sessionScore (votes : List VoteRow) (pid sid : Nat) : Nat :=
  ((votes.filter (fun v => v.targetPlayerId == pid && v.sessionId == sid)).map
    (fun v => v.rankScore)).sum

/-- `participant_scores`: `(p.id, p_score)` per participant, in
participant order. -/
def participantScores (db : DB) (s : SessionRow) : List (Nat × Nat) :=
  s.participants.map (fun pid => (pid, sessionScore db.votes pid s.id))

/-- Descending-by-second-component relation used for
`participant_scores.sort(key=lambda x: x[1], reverse=True)`. -/
def pairScoreDesc (a b : Nat × Nat) : Prop := b.2 ≤ a.2

instance : DecidableRel pairScoreDesc := fun a b => inferInstanceAs (Decidable (b.2 ≤ a.2))

instance : IsTotal (Nat × Nat) pairScoreDesc := ⟨fun a b => Nat.le_total b.2 a.2⟩

instance : IsTrans (Nat × Nat) pairScoreDesc := ⟨fun _ _ _ h h2 => Nat.le_trans h2 h⟩

/-- The sorted `participant_scores` list. -/
def sortedParticipantScores (db : DB) (s : SessionRow) : List (Nat × Nat) :=
  (participantScores db s).insertionSort pairScoreDesc

/-- `rank_in_session`: 1 plus the index of the first entry for the
player in the sorted list; the source's loop default is 1 when the
player is absent. -/
def rank_in_session (db : DB) (s : SessionRow) (pid : Nat) : Nat :=
  match (sortedParticipantScores db s).findIdx? (fun pr => pr.1 == pid) with
  | some i => i + 1
  | none => 1

/-- `player_sessions` of the player page: the filtered sessions the
player participated in. -/
def playerSessions (db : DB) (gid : Option Nat) (pid : Nat) : List SessionRow :=
  (filteredSessions db gid).filter (fun s => s.participants.contains pid)

/-! ## Operations as a transition system -/

/-- One state-changing request against the store. -/
inductive Op where
  | create (gameId : Nat) (playerIds : List Nat) (now : Nat)
  | submit (sid vid : Nat) (rks : List Nat)
  | delete (sid : Nat)

/-- Apply one operation to the store (result codes discarded). -/
def applyOp (db : DB) : Op → DB
  | .create g ps now => (create_session db g ps now).1
  | .submit sid vid rks => (submit_vote db sid vid rks).2
  | .delete sid => delete_session db sid

/-- The `is_active` column of the session with a given id, when it
exists. -/
def sessionActive (db : DB) (sid : Nat) : Option Nat :=
  (findSession db sid).map (fun s => s.isActive)

/-- Store well-formedness maintained by every operation: session ids
are below the autoincrement counter and are pairwise distinct, and
every Vote row belongs to an existing session and was cast by a
participant of that session. -/
def Inv (db : DB) : Prop :=
  (∀ s ∈ db.sessions, s.id < db.nextSessionId) ∧
  (db.sessions.map (fun s => s.id)).Nodup ∧
  (∀ v ∈ db.votes, ∃ s ∈ db.sessions, s.id = v.sessionId ∧ v.voterId ∈ s.participants)

instance (db : DB) : Decidable (Inv db) := by
  unfold Inv; infer_instance

/-! ## Characterization of `submit_vote` -/

theorem submit_vote_success {db : DB} {sid vid : Nat} {rks : List Nat} {s : SessionRow}
    (hs : findSession db sid = some s)
    (hg : gameExists db.games s.gameId = true)
    (ha : s.isActive ≠ 0)
    (hv : hasVoted db.votes sid vid = false)
    (hp : vid ∈ s.participants) :
    submit_vote db sid vid rks = (.ok, submitSuccessDB db sid vid rks s) := by
  unfold submit_vote
  rw [hs]
  simp only [hg, Bool.not_true, hv, Bool.false_eq_true, if_false]
  rw [if_neg (by simpa using ha), if_neg (by simp [hp])]

theorem submit_vote_ok_inversion {db db' : DB} {sid vid : Nat} {rks : List Nat}
    (h : submit_vote db sid vid rks = (.ok, db')) :
    ∃ s, findSession db sid = some s ∧
      gameExists db.games s.gameId = true ∧
      s.isActive ≠ 0 ∧
      hasVoted db.votes sid vid = false ∧
      vid ∈ s.participants ∧
      db' = submitSuccessDB db sid vid rks s := by
  unfold submit_vote at h
  cases hs : findSession db sid with
  | none => rw [hs] at h; simp at h
  | some s =>
    rw [hs] at h
    refine ⟨s, rfl, ?_⟩
    by_cases hg : gameExists db.games s.gameId
    · by_cases ha : s.isActive == 0
      · simp [hg, ha] at h
      · by_cases hv : hasVoted db.votes sid vid
        · simp [hg, ha, hv] at h
        · by_cases hp : vid ∈ s.participants
          · simp [hg, ha, hv, hp] at h
            exact ⟨hg, by simpa using ha, by simpa using hv, hp, h.symm⟩
          · simp [hg, ha, hv, hp] at h
    · simp [hg] at h

theorem submit_vote_fail_eq {db : DB} {sid vid : Nat} {rks : List Nat}
    (h : (submit_vote db sid vid rks).1 ≠ .ok) :
    (submit_vote db sid vid rks).2 = db := by
  cases hs : findSession db sid with
  | none => simp [submit_vote, hs]
  | some s =>
    by_cases hg : gameExists db.games s.gameId
    · by_cases ha : s.isActive == 0
      · simp [submit_vote, hs, hg, ha]
      · by_cases hv : hasVoted db.votes sid vid
        · simp [submit_vote, hs, hg, ha, hv]
        · by_cases hp : vid ∈ s.participants
          · exact absurd (by simp [submit_vote, hs, hg, ha, hv, hp]) h
          · simp [submit_vote, hs, hg, ha, hv, hp]
    · simp [submit_vote, hs, hg]

/-! ## `ballotVotes` lemmas -/

theorem ballotVotes_length (sid vid : Nat) (rks : List Nat) (firstId : Nat) :
    (ballotVotes sid vid rks firstId).length = rks.length := by
  simp [ballotVotes]

theorem ballotVotes_getElem (sid vid : Nat) (rks : List Nat) (firstId : Nat)
    (i : Nat) (hi : i < rks.length) (h : i < (ballotVotes sid vid rks firstId).length) :
    (ballotVotes sid vid rks firstId)[i] =
      ⟨firstId + i, sid, vid, rks[i], rks.length - i⟩ := by
  simp [ballotVotes, List.getElem_enum]

theorem ballotVotes_map_rankScore (sid vid : Nat) (rks : List Nat) (firstId : Nat) :
    (ballotVotes sid vid rks firstId).map (fun v => v.rankScore) =
      (List.range rks.length).map (fun i => rks.length - i) := by
  unfold ballotVotes
  rw [List.map_map]
  have : ((fun v : VoteRow => v.rankScore) ∘
      fun p : Nat × Nat => (⟨firstId + p.1, sid, vid, p.2, rks.length - p.1⟩ : VoteRow)) =
      (fun i => rks.length - i) ∘ Prod.fst := rfl
  rw [this, ← List.map_map, List.enum_map_fst]

theorem ballotVotes_scores_perm (sid vid : Nat) (rks : List Nat) (firstId : Nat) :
    ((ballotVotes sid vid rks firstId).map (fun v => v.rankScore)).Perm
      (List.range' 1 rks.length) := by
  rw [ballotVotes_map_rankScore]
  have h := List.reverse_range' 1 rks.length
  simp only [Nat.add_sub_cancel_left] at h
  rw [h.symm]
  exact List.reverse_perm _

/-! ## Generic list lemmas -/

theorem find?_map_comm {α : Type} (p : α → Bool) (f : α → α)
    (hf : ∀ t, p (f t) = p t) (l : List α) :
    (l.map f).find? p = (l.find? p).map f := by
  induction l with
  | nil => rfl
  | cons a t ih =>
    by_cases hpa : p a
    · simp [List.find?_cons, hf, hpa]
    · simp only [List.map_cons, List.find?_cons, hf a, hpa, Bool.false_eq_true, if_false]
      simpa [hpa] using ih

theorem filter_orderedInsert_pos {α : Type} (r : α → α → Prop) [DecidableRel r]
    (p : α → Bool) (a : α) (l : List α) (hpa : p a = true)
    (h : ∀ b ∈ l, p b = true → r a b) :
    (l.orderedInsert r a).filter p = a :: l.filter p := by
  induction l with
  | nil => simp [List.orderedInsert, hpa]
  | cons b t ih =>
    by_cases hr : r a b
    · simp [List.orderedInsert, hr, hpa]
    · have hpb : p b = false := by
        cases hb : p b with
        | true => exact absurd (h b (by simp) hb) hr
        | false => rfl
      simp only [List.orderedInsert, if_neg hr, List.filter_cons, hpb,
        Bool.false_eq_true, if_false]
      exact ih (fun c hc hpc => h c (by simp [hc]) hpc)

theorem filter_orderedInsert_neg {α : Type} (r : α → α → Prop) [DecidableRel r]
    (p : α → Bool) (a : α) (l : List α) (hpa : p a = false) :
    (l.orderedInsert r a).filter p = l.filter p := by
  induction l with
  | nil => simp [List.orderedInsert, hpa]
  | cons b t ih =>
    by_cases hr : r a b
    · simp [List.orderedInsert, hr, hpa]
    · simp only [List.orderedInsert, if_neg hr, List.filter_cons]
      rw [ih]

/-- Stability of `insertionSort` for a descending numeric key: the
subsequence at each key value is untouched by the sort. -/
theorem insertionSort_filter_key {α : Type} (k : α → Nat) (r : α → α → Prop)
    [DecidableRel r] (hr : ∀ a b, r a b ↔ k b ≤ k a) (l : List α) (c : Nat) :
    (l.insertionSort r).filter (fun x => k x == c) = l.filter (fun x => k x == c) := by
  induction l with
  | nil => rfl
  | cons a t ih =>
    show ((t.insertionSort r).orderedInsert r a).filter _ = _
    by_cases hpa : k a == c
    · rw [filter_orderedInsert_pos r _ a _ hpa
        (fun b _ hpb => (hr a b).mpr (by
          have h1 : k a = c := by simpa using hpa
          have h2 : k b = c := by simpa using hpb
          omega))]
      simp only [List.filter_cons, hpa, if_true, ih]
    · rw [filter_orderedInsert_neg r _ a _ (by simpa using hpa)]
      simp only [List.filter_cons, hpa, Bool.false_eq_true, if_false, ih]

theorem contains_map_id_any {α : Type} (f : α → Nat) (l : List α) (x : Nat) :
    (l.map f).contains x = l.any (fun a => f a == x) := by
  induction l with
  | nil => rfl
  | cons a t ih =>
    simp only [List.map_cons, List.contains_cons, List.any_cons, ih]
    congr 1
    simp [eq_comm]

/-! ## `votersOf` and the store invariant -/

theorem mem_votersOf {votes : List VoteRow} {sid x : Nat} :
    x ∈ votersOf votes sid ↔ ∃ v ∈ votes, v.sessionId = sid ∧ v.voterId = x := by
  unfold votersOf
  rw [List.mem_dedup]
  simp only [List.mem_map, List.mem_filter]
  constructor
  · rintro ⟨v, ⟨hv, hsid⟩, hx⟩
    exact ⟨v, hv, by simpa using hsid, hx⟩
  · rintro ⟨v, hv, hsid, hx⟩
    exact ⟨v, ⟨hv, by simpa using hsid⟩, hx⟩

theorem votersOf_append {votes extra : List VoteRow} {sid : Nat} {x : Nat} :
    x ∈ votersOf (votes ++ extra) sid ↔
      x ∈ votersOf votes sid ∨ x ∈ votersOf extra sid := by
  simp only [mem_votersOf, List.mem_append]
  constructor
  · rintro ⟨v, hv | hv, h⟩
    · exact Or.inl ⟨v, hv, h⟩
    · exact Or.inr ⟨v, hv, h⟩
  · rintro (⟨v, hv, h⟩ | ⟨v, hv, h⟩)
    · exact ⟨v, Or.inl hv, h⟩
    · exact ⟨v, Or.inr hv, h⟩

theorem findSession_mem {db : DB} {sid : Nat} {s : SessionRow}
    (h : findSession db sid = some s) : s ∈ db.sessions ∧ s.id = sid :=
  ⟨List.mem_of_find?_eq_some h, by simpa using List.find?_some h⟩

theorem closeUpd_id (sid : Nat) (t : SessionRow) : (closeUpd sid t).id = t.id := by
  unfold closeUpd; split <;> rfl

theorem closeUpd_participants (sid : Nat) (t : SessionRow) :
    (closeUpd sid t).participants = t.participants := by
  unfold closeUpd; split <;> rfl

theorem submitSuccessDB_sessions (db : DB) (sid vid : Nat) (rks : List Nat)
    (s : SessionRow) :
    (submitSuccessDB db sid vid rks s).sessions = db.sessions ∨
      (submitSuccessDB db sid vid rks s).sessions = db.sessions.map (closeUpd sid) := by
  simp only [submitSuccessDB]
  split
  · exact Or.inr rfl
  · exact Or.inl rfl

theorem inv_create (db : DB) (g : Nat) (ps : List Nat) (now : Nat) (h : Inv db) :
    Inv (create_session db g ps now).1 := by
  obtain ⟨h1, h2, h3⟩ := h
  refine ⟨?_, ?_, ?_⟩
  · intro s hs
    simp only [create_session, List.mem_append, List.mem_singleton] at hs
    rcases hs with hs | hs
    · exact Nat.lt_succ_of_lt (h1 s hs)
    · simp [hs, createdSession, create_session]
  · simp only [create_session, List.map_append]
    rw [List.nodup_append]
    refine ⟨h2, by simp, ?_⟩
    intro x hx hmem
    simp only [List.map_cons, List.map_nil, List.mem_singleton, createdSession] at hmem
    obtain ⟨s, hs, hsx⟩ := List.mem_map.mp hx
    exact absurd (hsx ▸ hmem ▸ h1 s hs) (by simp)
  · intro v hv
    obtain ⟨s, hs, hsid, hvp⟩ := h3 v hv
    exact ⟨s, by simp [create_session, hs], hsid, hvp⟩

theorem inv_delete (db : DB) (sid : Nat) (h : Inv db) : Inv (delete_session db sid) := by
  obtain ⟨h1, h2, h3⟩ := h
  unfold delete_session
  cases hfs : findSession db sid with
  | none => exact ⟨h1, h2, h3⟩
  | some s0 =>
    refine ⟨?_, ?_, ?_⟩
    · intro s hs
      exact h1 s (List.mem_of_mem_filter hs)
    · exact List.Nodup.sublist ((List.filter_sublist _).map _) h2
    · intro v hv
      rw [List.mem_filter] at hv
      obtain ⟨s, hs, hsid, hvp⟩ := h3 v hv.1
      refine ⟨s, List.mem_filter.mpr ⟨hs, ?_⟩, hsid, hvp⟩
      have : v.sessionId ≠ sid := by simpa using hv.2
      simp [hsid, this]

theorem inv_submit (db : DB) (sid vid : Nat) (rks : List Nat) (h : Inv db) :
    Inv (submit_vote db sid vid rks).2 := by
  by_cases hres : (submit_vote db sid vid rks).1 = .ok
  · have heq : submit_vote db sid vid rks = (.ok, (submit_vote db sid vid rks).2) :=
      Prod.ext hres rfl
    obtain ⟨s, hfs, _, _, _, hp, hdb⟩ := submit_vote_ok_inversion heq
    obtain ⟨hmem, hsid⟩ := findSession_mem hfs
    obtain ⟨h1, h2, h3⟩ := h
    rw [hdb]
    have hsess := submitSuccessDB_sessions db sid vid rks s
    have hids : ((submitSuccessDB db sid vid rks s).sessions.map (fun s => s.id)) =
        db.sessions.map (fun s => s.id) := by
      rcases hsess with he | he <;> rw [he]
      simp only [List.map_map]
      congr 1
      funext t
      exact closeUpd_id sid t
    refine ⟨?_, ?_, ?_⟩
    · intro t ht
      have : t.id ∈ (submitSuccessDB db sid vid rks s).sessions.map (fun s => s.id) :=
        List.mem_map.mpr ⟨t, ht, rfl⟩
      rw [hids] at this
      obtain ⟨u, hu, hut⟩ := List.mem_map.mp this
      have hnext : (submitSuccessDB db sid vid rks s).nextSessionId = db.nextSessionId := rfl
      rw [hnext, ← hut]
      exact h1 u hu
    · rw [hids]; exact h2
    · intro v hv
      have hvotes : (submitSuccessDB db sid vid rks s).votes =
          db.votes ++ ballotVotes sid vid rks db.nextVoteId := rfl
      rw [hvotes, List.mem_append] at hv
      rcases hv with hv | hv
      · obtain ⟨u, hu, husid, hup⟩ := h3 v hv
        rcases hsess with he | he
        · exact ⟨u, he ▸ hu, husid, hup⟩
        · refine ⟨closeUpd sid u, he ▸ List.mem_map.mpr ⟨u, hu, rfl⟩, ?_, ?_⟩
          · rw [closeUpd_id]; exact husid
          · rw [closeUpd_participants]; exact hup
      · have hvs : v.sessionId = sid ∧ v.voterId = vid := by
          unfold ballotVotes at hv
          obtain ⟨p, _, hp2⟩ := List.mem_map.mp hv
          rw [← hp2]
          exact ⟨rfl, rfl⟩
        rcases hsess with he | he
        · exact ⟨s, he ▸ hmem, by rw [hvs.1, hsid], by rw [hvs.2]; exact hp⟩
        · refine ⟨closeUpd sid s, he ▸ List.mem_map.mpr ⟨s, hmem, rfl⟩, ?_, ?_⟩
          · rw [closeUpd_id, hvs.1, hsid]
          · rw [closeUpd_participants, hvs.2]; exact hp
  · rw [submit_vote_fail_eq hres]; exact h

theorem inv_applyOp (db : DB) (op : Op) (h : Inv db) : Inv (applyOp db op) := by
  cases op with
  | create g ps now => exact inv_create db g ps now h
  | submit sid vid rks => exact inv_submit db sid vid rks h
  | delete sid => exact inv_delete db sid h

/-- Under the invariant, a session's distinct voters are among its
participants. -/
theorem voters_subset_participants {db : DB} {sid : Nat} {s : SessionRow}
    (h : Inv db) (hfs : findSession db sid = some s) :
    ∀ x ∈ votersOf db.votes sid, x ∈ s.participants := by
  intro x hx
  obtain ⟨v, hv, hvsid, hvx⟩ := mem_votersOf.mp hx
  obtain ⟨s0, hs0, hs0id, hs0p⟩ := h.2.2 v hv
  obtain ⟨hmem, hsid⟩ := findSession_mem hfs
  have : s0 = s := by
    have hinj := List.inj_on_of_nodup_map h.2.1
    exact hinj hs0 hmem (by rw [hs0id, hvsid, hsid])
  rw [← hvx, ← this]
  exact hs0p

/-! ## Claims -/

/-- C1: for every ballot submitted as an ordered list of the session's
N participants and accepted by SubmitBallot, exactly N Vote rows are
inserted, and their rank_scores are exactly the permutation {1,…,N}:
the i-th list entry (0-indexed) receives score N − i, so the first
entry receives N and the last receives 1. -/
theorem claim_C1 (db db' : DB) (sid vid : Nat) (rks : List Nat) (s : SessionRow)
    (hs : findSession db sid = some s)
    (hperm : rks.Perm s.participants)
    (hok : submit_vote db sid vid rks = (.ok, db')) :
    db'.votes = db.votes ++ ballotVotes sid vid rks db.nextVoteId ∧
    (ballotVotes sid vid rks db.nextVoteId).length = s.participants.length ∧
    (∀ i, i < rks.length → ∀ h2 : i < (ballotVotes sid vid rks db.nextVoteId).length,
      (ballotVotes sid vid rks db.nextVoteId)[i].rankScore = s.participants.length - i ∧
      ∀ hi : i < rks.length,
        (ballotVotes sid vid rks db.nextVoteId)[i].targetPlayerId = rks[i]) ∧
    ((ballotVotes sid vid rks db.nextVoteId).map (fun v => v.rankScore)).Perm
      (List.range' 1 s.participants.length) := by
  have hlen : rks.length = s.participants.length := hperm.length_eq
  obtain ⟨s2, hs2, _, _, _, _, hdb⟩ := submit_vote_ok_inversion hok
  have hss : s2 = s := by rw [hs] at hs2; exact (Option.some.inj hs2).symm
  subst hss
  refine ⟨?_, ?_, ?_, ?_⟩
  · rw [hdb]; rfl
  · rw [ballotVotes_length, hlen]
  · intro i hi h2
    constructor
    · rw [ballotVotes_getElem sid vid rks db.nextVoteId i hi h2, ← hlen]
    · intro hi2
      rw [ballotVotes_getElem sid vid rks db.nextVoteId i hi h2]
  · rw [← hlen]
    exact ballotVotes_scores_perm sid vid rks db.nextVoteId

/-- Witness for C1 at the spec's own scenario: session for game 1 with
participants [1,2,3] and the ballot [2,1,3]. -/
theorem claim_C1_witness :
    (submit_vote (create_session initDB 1 [1, 2, 3] 0).1 1 1 [2, 1, 3]).2.votes =
      (create_session initDB 1 [1, 2, 3] 0).1.votes ++ ballotVotes 1 1 [2, 1, 3] 1 ∧
    ((ballotVotes 1 1 [2, 1, 3] 1).map (fun v => v.rankScore)).Perm (List.range' 1 3) := by
  have h := claim_C1 (create_session initDB 1 [1, 2, 3] 0).1
    (submit_vote (create_session initDB 1 [1, 2, 3] 0).1 1 1 [2, 1, 3]).2
    1 1 [2, 1, 3] ⟨1, 0, 1, 1, [1, 2, 3]⟩ (by decide) (by decide) rfl
  exact ⟨h.1, h.2.2.2⟩

/-! ## `sessionActive` lemmas -/

theorem sessionActive_submitSuccess_self (db : DB) (sid vid : Nat) (rks : List Nat)
    (s : SessionRow) (hs : findSession db sid = some s) :
    sessionActive (submitSuccessDB db sid vid rks s) sid =
      some (if s.participants.all
          (fun p => (votersOf (db.votes ++ ballotVotes sid vid rks db.nextVoteId) sid).contains p)
        then 0 else s.isActive) := by
  have hid : s.id = sid := (findSession_mem hs).2
  unfold findSession at hs
  unfold sessionActive submitSuccessDB findSession
  dsimp only
  split
  · rw [find?_map_comm _ (closeUpd sid) (fun t => by rw [closeUpd_id]) db.sessions, hs]
    simp [closeUpd, hid]
  · rw [hs]
    rfl

theorem sessionActive_submitSuccess_other (db : DB) (sid vid t : Nat) (rks : List Nat)
    (s : SessionRow) (ht : t ≠ sid) :
    sessionActive (submitSuccessDB db sid vid rks s) t = sessionActive db t := by
  unfold sessionActive submitSuccessDB findSession
  dsimp only
  split
  · rw [find?_map_comm _ (closeUpd sid) (fun u => by rw [closeUpd_id]) db.sessions]
    cases hf : db.sessions.find? (fun u => u.id == t) with
    | none => rfl
    | some u =>
      have hut : u.id = t := by simpa using List.find?_some hf
      simp only [Option.map_map, Option.map_some]
      have : closeUpd sid u = u := by
        unfold closeUpd
        rw [if_neg (by simp [hut, ht])]
      simp [Function.comp, this]
  · rfl

theorem find?_filter_of_imp {α : Type} (p q : α → Bool) (l : List α)
    (h : ∀ a, p a = true → q a = true) :
    (l.filter q).find? p = l.find? p := by
  induction l with
  | nil => rfl
  | cons a t ih =>
    by_cases hpa : p a
    · rw [List.filter_cons, if_pos (h a hpa), List.find?_cons_of_pos _ hpa,
        List.find?_cons_of_pos _ hpa]
    · by_cases hqa : q a
      · rw [List.filter_cons, if_pos hqa, List.find?_cons_of_neg _ hpa,
          List.find?_cons_of_neg _ hpa, ih]
      · rw [List.filter_cons, if_neg (by simpa using hqa), List.find?_cons_of_neg _ hpa, ih]

theorem sessionActive_delete_other {db : DB} {sid t : Nat} (ht : t ≠ sid) :
    sessionActive (delete_session db sid) t = sessionActive db t := by
  unfold sessionActive delete_session
  cases hfs : findSession db sid with
  | none => rfl
  | some s0 =>
    unfold findSession
    simp only
    rw [find?_filter_of_imp _ _ _ (fun a ha => by
      have : a.id = t := by simpa using ha
      simp [this, ht])]

theorem sessionActive_delete_self (db : DB) (sid : Nat) :
    sessionActive (delete_session db sid) sid = none := by
  unfold sessionActive delete_session
  cases hfs : findSession db sid with
  | none =>
    unfold findSession at hfs ⊢
    rw [hfs]
    rfl
  | some s0 =>
    unfold findSession
    simp only
    rw [List.find?_eq_none.mpr]
    · rfl
    · intro a ha
      have := List.of_mem_filter ha
      simp only [bne_iff_ne, ne_eq] at this
      simp [this]

theorem sessionActive_create {db : DB} {g now t : Nat} {ps : List Nat}
    (ht : t < db.nextSessionId) :
    sessionActive (create_session db g ps now).1 t = sessionActive db t := by
  unfold sessionActive create_session findSession
  simp only [List.find?_append]
  cases hf : db.sessions.find? (fun u => u.id == t) with
  | some u => rfl
  | none =>
    simp only [Option.none_or]
    rw [List.find?_cons_of_neg _ (by simp [createdSession]; omega), List.find?_nil]

/-- "The session with id `t` is closed, or no longer (or not yet)
exists": the configuration that, once reached below the id counter,
persists forever. -/
def ClosedOrGone (db : DB) (t : Nat) : Prop :=
  (sessionActive db t = some 0 ∨ sessionActive db t = none) ∧ t < db.nextSessionId

theorem delete_nextSessionId (db : DB) (sid : Nat) :
    (delete_session db sid).nextSessionId = db.nextSessionId := by
  unfold delete_session
  cases findSession db sid <;> rfl

theorem submit_nextSessionId (db : DB) (sid vid : Nat) (rks : List Nat) :
    (submit_vote db sid vid rks).2.nextSessionId = db.nextSessionId := by
  unfold submit_vote
  cases findSession db sid with
  | none => rfl
  | some s =>
    dsimp only
    split
    · rfl
    · split
      · rfl
      · split
        · rfl
        · split <;> rfl

theorem closedOrGone_step (db : DB) (t : Nat) (op : Op)
    (h : ClosedOrGone db t) : ClosedOrGone (applyOp db op) t := by
  obtain ⟨hact, hlt⟩ := h
  cases op with
  | create g ps now =>
    refine ⟨?_, ?_⟩
    · rw [show applyOp db (.create g ps now) = (create_session db g ps now).1 from rfl,
        sessionActive_create hlt]
      exact hact
    · exact Nat.lt_succ_of_lt hlt
  | submit sid vid rks =>
    have hop : applyOp db (.submit sid vid rks) = (submit_vote db sid vid rks).2 := rfl
    rw [hop]
    refine ⟨?_, by rw [submit_nextSessionId]; exact hlt⟩
    by_cases hres : (submit_vote db sid vid rks).1 = .ok
    · obtain ⟨s, hfs, _, hactive, _, _, hdb⟩ :=
        submit_vote_ok_inversion (Prod.ext hres rfl)
      by_cases htid : t = sid
      · subst htid
        have : sessionActive db t = some s.isActive := by
          unfold sessionActive
          rw [hfs]
          rfl
        rcases hact with h0 | h0 <;> rw [this] at h0
        · exact absurd (Option.some.inj h0) hactive
        · exact absurd h0 (by simp)
      · have hoth := sessionActive_submitSuccess_other db sid vid t rks s htid
        rw [← hdb] at hoth
        rw [hoth]
        exact hact
    · rw [submit_vote_fail_eq hres]
      exact hact
  | delete sid =>
    refine ⟨?_, by rw [show applyOp db (.delete sid) = delete_session db sid from rfl,
      delete_nextSessionId]; exact hlt⟩
    by_cases htid : t = sid
    · subst htid
      exact Or.inr (sessionActive_delete_self db t)
    · rw [show applyOp db (.delete sid) = delete_session db sid from rfl,
        sessionActive_delete_other htid]
      exact hact

theorem closedOrGone_foldl (db : DB) (t : Nat) (ops : List Op)
    (h : ClosedOrGone db t) : ClosedOrGone (ops.foldl applyOp db) t := by
  induction ops generalizing db with
  | nil => exact h
  | cons op rest ih => exact ih (applyOp db op) (closedOrGone_step db t op h)

/-- C2: a session's `is_active` becomes false exactly when, after a
successful ballot insertion, the distinct voters of the session cover
its participant set; failed submissions leave the store unchanged,
other sessions' `is_active` is untouched, and once false it never
becomes true again under any sequence of operations. -/
theorem claim_C2 (db db' : DB) (sid vid : Nat) (rks : List Nat) (s : SessionRow)
    (hs : findSession db sid = some s) :
    (submit_vote db sid vid rks = (.ok, db') →
      (sessionActive db' sid = some 0 ↔
        ∀ p ∈ s.participants, p ∈ votersOf db'.votes sid) ∧
      (∀ t, t ≠ sid → sessionActive db' t = sessionActive db t)) ∧
    ((submit_vote db sid vid rks).1 ≠ .ok → (submit_vote db sid vid rks).2 = db) ∧
    (∀ t, Inv db → sessionActive db t = some 0 → ∀ ops : List Op,
      sessionActive (ops.foldl applyOp db) t = some 0 ∨
        sessionActive (ops.foldl applyOp db) t = none) := by
  refine ⟨?_, submit_vote_fail_eq, ?_⟩
  · intro hok
    obtain ⟨s2, hs2, hg2, hactive, hv2, hp2, hdb⟩ := submit_vote_ok_inversion hok
    have hss : s2 = s := by rw [hs] at hs2; exact (Option.some.inj hs2).symm
    rw [hss] at hactive hdb
    have hvotes : db'.votes = db.votes ++ ballotVotes sid vid rks db.nextVoteId := by
      rw [hdb]
      rfl
    constructor
    · have hself := sessionActive_submitSuccess_self db sid vid rks s hs
      rw [← hdb] at hself
      rw [hself]
      by_cases hc : (s.participants.all
          (fun p => (votersOf (db.votes ++ ballotVotes sid vid rks db.nextVoteId) sid).contains p)) = true
      · rw [if_pos hc]
        constructor
        · intro _ p hp
          rw [hvotes]
          simpa using List.all_eq_true.mp hc p hp
        · intro _
          rfl
      · rw [if_neg hc]
        constructor
        · intro h0
          exact absurd (Option.some.inj h0) hactive
        · intro hall
          exfalso
          apply hc
          rw [List.all_eq_true]
          intro p hp
          have := hall p hp
          rw [hvotes] at this
          simpa using this
    · intro t ht
      have hoth := sessionActive_submitSuccess_other db sid vid t rks s ht
      rw [← hdb] at hoth
      exact hoth
  · intro t hInv h0 ops
    have hfound : ∃ u, findSession db t = some u ∧ u.isActive = 0 := by
      unfold sessionActive at h0
      cases hf : findSession db t with
      | none => rw [hf] at h0; exact absurd h0 (by simp)
      | some u =>
        rw [hf] at h0
        exact ⟨u, rfl, Option.some.inj h0⟩
    obtain ⟨u, hu, _⟩ := hfound
    have hlt : t < db.nextSessionId := by
      obtain ⟨hmem, hid⟩ := findSession_mem hu
      rw [← hid]
      exact hInv.1 u hmem
    exact (closedOrGone_foldl db t ops ⟨Or.inl h0, hlt⟩).1

/-! ## Concrete runs used by witnesses -/

/-- Session 1 for game 1 with participants [1, 2, 3] (spec §8 scenario). -/
def exDB0 : DB := (create_session initDB 1 [1, 2, 3] 0).1

/-- …after player 1's ballot [2, 1, 3]. -/
def exDB1 : DB := (submit_vote exDB0 1 1 [2, 1, 3]).2

/-- …after player 2's ballot [2, 1, 3]. -/
def exDB2 : DB := (submit_vote exDB1 1 2 [2, 1, 3]).2

/-- …after player 3's ballot [2, 1, 3]: all participants voted. -/
def exDB3 : DB := (submit_vote exDB2 1 3 [2, 1, 3]).2

/-- Witness for C2: the closing submission of the §8 scenario, and
persistence of the closed state across a later operation. -/
theorem claim_C2_witness :
    (sessionActive exDB3 1 = some 0 ↔
      ∀ p ∈ [1, 2, 3], p ∈ votersOf exDB3.votes 1) ∧
    (sessionActive (List.foldl applyOp exDB3 [Op.submit 1 1 [1, 2, 3]]) 1 = some 0 ∨
      sessionActive (List.foldl applyOp exDB3 [Op.submit 1 1 [1, 2, 3]]) 1 = none) := by
  constructor
  · exact ((claim_C2 exDB2 exDB3 1 3 [2, 1, 3] ⟨1, 0, 1, 1, [1, 2, 3]⟩
      (by decide)).1 rfl).1
  · exact (claim_C2 exDB3 exDB3 1 1 [1, 2, 3] ⟨1, 0, 1, 0, [1, 2, 3]⟩
      (by decide)).2.2 1 (by decide) (by decide) [Op.submit 1 1 [1, 2, 3]]

/-! Claims C4–C7 follow here; C3 and C8–C10 are stated after the
aggregation lemmas they need. -/

/-- C4 counterexample: in a session with participants [1, 2], the
ballot [3, 3] — duplicate, extraneous, missing both participants — is
accepted and produces two Vote rows targeting player 3. -/
theorem claim_C4_cex :
    (submit_vote (create_session initDB 1 [1, 2] 0).1 1 1 [3, 3]).1 = SubmitResult.ok ∧
    ((submit_vote (create_session initDB 1 [1, 2] 0).1 1 1 [3, 3]).2.votes.map
      (fun v => v.targetPlayerId)) = [3, 3] ∧
    (findSession (create_session initDB 1 [1, 2] 0).1 1).map
      (fun s => s.participants) = some [1, 2] ∧
    ¬(3 : Nat) ∈ [1, 2] := by
  refine ⟨by decide, by decide, by decide, by decide⟩

/-- C4 (amended): SubmitBallot does not validate ballot contents
against the participant set; an accepted ballot with target list `rks`
produces exactly one Vote row per list entry — `rks.length` rows, the
i-th targeting `rks[i]` with score `rks.length − i` — whether or not
the entries are participants, duplicated, or missing. -/
theorem claim_C4 (db db' : DB) (sid vid : Nat) (rks : List Nat)
    (hok : submit_vote db sid vid rks = (.ok, db')) :
    db'.votes = db.votes ++ ballotVotes sid vid rks db.nextVoteId ∧
    (ballotVotes sid vid rks db.nextVoteId).length = rks.length ∧
    ∀ i, ∀ h2 : i < (ballotVotes sid vid rks db.nextVoteId).length,
      ∀ hi : i < rks.length,
      (ballotVotes sid vid rks db.nextVoteId)[i] =
        ⟨db.nextVoteId + i, sid, vid, rks[i], rks.length - i⟩ := by
  obtain ⟨s2, _, _, _, _, _, hdb⟩ := submit_vote_ok_inversion hok
  refine ⟨by rw [hdb]; rfl, ballotVotes_length sid vid rks db.nextVoteId, ?_⟩
  intro i h2 hi
  exact ballotVotes_getElem sid vid rks db.nextVoteId i hi h2

/-- Witness for C4 (amended) at the counterexample's own run. -/
theorem claim_C4_witness :
    (submit_vote (create_session initDB 1 [1, 2] 0).1 1 1 [3, 3]).2.votes =
      (create_session initDB 1 [1, 2] 0).1.votes ++ ballotVotes 1 1 [3, 3] 1 :=
  (claim_C4 (create_session initDB 1 [1, 2] 0).1
    (submit_vote (create_session initDB 1 [1, 2] 0).1 1 1 [3, 3]).2 1 1 [3, 3] rfl).1

/-- C5 counterexample: CreateSession performs no referential
validation — with a game id hitting no Game and a player id hitting no
Player, a session is still created, with an empty participant set. -/
theorem claim_C5_cex :
    gameExists initDB.games 99 = false ∧
    (∀ p ∈ initDB.players, p.id ≠ 77) ∧
    (create_session initDB 99 [77] 5).1.sessions = [⟨1, 5, 99, 1, []⟩] := by
  refine ⟨by decide, by decide, by decide⟩

/-- C5 (amended): CreateSession validates nothing: it always creates a
Session with is_active = 1, date = now, game_id stored as given, and
participants equal to the (possibly empty) set of submitted player ids
that resolve to existing Players; votes are untouched and the new id
is returned. -/
theorem claim_C5 (db : DB) (gid : Nat) (pids : List Nat) (now : Nat) :
    (create_session db gid pids now).1.sessions =
      db.sessions ++ [createdSession db gid pids now] ∧
    (create_session db gid pids now).1.votes = db.votes ∧
    (create_session db gid pids now).2 = db.nextSessionId ∧
    (createdSession db gid pids now).isActive = 1 ∧
    (createdSession db gid pids now).date = now ∧
    (createdSession db gid pids now).gameId = gid ∧
    ∀ x, x ∈ (createdSession db gid pids now).participants ↔
      (x ∈ pids ∧ ∃ p ∈ db.players, p.id = x) := by
  refine ⟨rfl, rfl, rfl, rfl, rfl, rfl, ?_⟩
  intro x
  simp only [createdSession, resolveParticipants, List.mem_map, List.mem_filter]
  constructor
  · rintro ⟨p, ⟨hp, hpid⟩, hx⟩
    exact ⟨by rw [← hx]; simpa using hpid, p, hp, hx⟩
  · rintro ⟨hx, p, hp, hpid⟩
    exact ⟨p, ⟨hp, by rw [hpid]; simpa using hx⟩, hpid⟩

/-- Witness for C5 (amended) at the counterexample's own inputs. -/
theorem claim_C5_witness :
    (create_session initDB 99 [77] 5).1.sessions =
      initDB.sessions ++ [createdSession initDB 99 [77] 5] ∧
    ((7 : Nat) ∈ (createdSession initDB 99 [77] 5).participants ↔
      (7 ∈ [77] ∧ ∃ p ∈ initDB.players, p.id = 7)) :=
  ⟨(claim_C5 initDB 99 [77] 5).1, (claim_C5 initDB 99 [77] 5).2.2.2.2.2.2 7⟩

/-- C6: with the session found, its game present and the session
active, a second ballot for the same (session, voter) pair is rejected
as a duplicate, and (in an invariant-respecting store) a ballot from a
voter outside the participant set is rejected as not-a-participant; in
both cases the store is returned unchanged. -/
theorem claim_C6 (db : DB) (sid vid : Nat) (rks : List Nat) (s : SessionRow)
    (hInv : Inv db)
    (hs : findSession db sid = some s)
    (hg : gameExists db.games s.gameId = true)
    (ha : s.isActive ≠ 0) :
    (hasVoted db.votes sid vid = true →
      submit_vote db sid vid rks = (.duplicateVote, db)) ∧
    (vid ∉ s.participants →
      submit_vote db sid vid rks = (.notAParticipant, db)) := by
  constructor
  · intro hv
    unfold submit_vote
    rw [hs]
    simp only [hg, Bool.not_true, Bool.false_eq_true, if_false]
    rw [if_neg (by simpa using ha), if_pos hv]
  · intro hp
    have hv : hasVoted db.votes sid vid = false := by
      cases hvv : hasVoted db.votes sid vid with
      | false => rfl
      | true =>
        exfalso
        unfold hasVoted at hvv
        obtain ⟨v, hvmem, hvp⟩ := List.any_eq_true.mp hvv
        rw [Bool.and_eq_true] at hvp
        have hmem : vid ∈ votersOf db.votes sid := by
          rw [mem_votersOf]
          exact ⟨v, hvmem, by simpa using hvp.1, by simpa using hvp.2⟩
        exact hp (voters_subset_participants hInv hs vid hmem)
    unfold submit_vote
    rw [hs]
    simp only [hg, Bool.not_true, Bool.false_eq_true, if_false]
    rw [if_neg (by simpa using ha), if_neg (by simp [hv]), if_pos (by simp [hp])]

/-- Witness for C6: after player 1 voted in a [1, 2] session, player 1
is rejected as a duplicate and player 4 as not a participant. -/
theorem claim_C6_witness :
    submit_vote (submit_vote (create_session initDB 1 [1, 2] 0).1 1 1 [1, 2]).2
        1 1 [1, 2] =
      (.duplicateVote, (submit_vote (create_session initDB 1 [1, 2] 0).1 1 1 [1, 2]).2) ∧
    submit_vote (submit_vote (create_session initDB 1 [1, 2] 0).1 1 1 [1, 2]).2
        1 4 [1, 2] =
      (.notAParticipant, (submit_vote (create_session initDB 1 [1, 2] 0).1 1 1 [1, 2]).2) := by
  constructor
  · exact (claim_C6 (submit_vote (create_session initDB 1 [1, 2] 0).1 1 1 [1, 2]).2
      1 1 [1, 2] ⟨1, 0, 1, 1, [1, 2]⟩ (by decide) (by decide) (by decide) (by decide)).1
      (by decide)
  · exact (claim_C6 (submit_vote (create_session initDB 1 [1, 2] 0).1 1 1 [1, 2]).2
      1 4 [1, 2] ⟨1, 0, 1, 1, [1, 2]⟩ (by decide) (by decide) (by decide) (by decide)).2
      (by decide)

/-- C7: deleting an existing session removes it and exactly its Vote
rows (all other sessions and votes survive), after which it is in no
filtered session set (hence in no leaderboard aggregation); deleting a
missing session is a no-op that succeeds. -/
theorem claim_C7 (db : DB) (sid : Nat) :
    (∀ s0, findSession db sid = some s0 →
      (∀ s ∈ (delete_session db sid).sessions, s.id ≠ sid) ∧
      (∀ v ∈ (delete_session db sid).votes, v.sessionId ≠ sid) ∧
      (∀ s, s ∈ (delete_session db sid).sessions ↔ s ∈ db.sessions ∧ s.id ≠ sid) ∧
      (∀ v, v ∈ (delete_session db sid).votes ↔ v ∈ db.votes ∧ v.sessionId ≠ sid) ∧
      (∀ gid : Option Nat, ∀ s ∈ filteredSessions (delete_session db sid) gid, s.id ≠ sid)) ∧
    (findSession db sid = none → delete_session db sid = db) := by
  constructor
  · intro s0 hs0
    have hsess : (delete_session db sid).sessions =
        db.sessions.filter (fun s => s.id != sid) := by
      unfold delete_session
      rw [hs0]
    have hvotes : (delete_session db sid).votes =
        db.votes.filter (fun v => v.sessionId != sid) := by
      unfold delete_session
      rw [hs0]
    have hmem : ∀ s, s ∈ (delete_session db sid).sessions ↔
        s ∈ db.sessions ∧ s.id ≠ sid := by
      intro s
      rw [hsess, List.mem_filter]
      simp
    have hmemv : ∀ v, v ∈ (delete_session db sid).votes ↔
        v ∈ db.votes ∧ v.sessionId ≠ sid := by
      intro v
      rw [hvotes, List.mem_filter]
      simp
    refine ⟨fun s hs => ((hmem s).mp hs).2, fun v hv => ((hmemv v).mp hv).2,
      hmem, hmemv, ?_⟩
    intro gid s hs
    have hmem2 : s ∈ (delete_session db sid).sessions := by
      cases gid with
      | none =>
        exact (List.mem_insertionSort dateDesc).mp hs
      | some g =>
        have := (List.mem_insertionSort dateDesc).mp hs
        exact List.mem_of_mem_filter this
    exact ((hmem s).mp hmem2).2
  · intro hnone
    unfold delete_session
    rw [hnone]

/-- Witness for C7: deleting session 1 from the finished §8 run
removes that session row; deleting from the seed store does nothing. -/
theorem claim_C7_witness :
    ¬(⟨1, 0, 1, 0, [1, 2, 3]⟩ : SessionRow) ∈ (delete_session exDB3 1).sessions ∧
    delete_session initDB 1 = initDB := by
  constructor
  · intro hmem
    exact (((claim_C7 exDB3 1).1 ⟨1, 0, 1, 0, [1, 2, 3]⟩ (by decide)).2.2.1
      ⟨1, 0, 1, 0, [1, 2, 3]⟩ |>.mp hmem).2 rfl
  · exact (claim_C7 initDB 1).2 (by decide)

/-! ## Spec-side aggregation (for the C3 refinement)

These definitions transcribe §4.2 of the specification
(`LeaderboardFor(sessionSet)`), to be compared against the
source-derived `leaderRowFor`. -/

/-- Spec: "sum rank_score across all Votes where target = player and
session ∈ sessionSet". -/
def specScore (votes : List VoteRow) (sessionSet : List SessionRow) (pid : Nat) : Nat :=
  ((votes.filter (fun v => v.targetPlayerId == pid &&
    sessionSet.any (fun s => s.id == v.sessionId))).map (fun v => v.rankScore)).sum

/-- Spec: "count of Votes where rank_score == 1" (within the set). -/
def specConeCount (votes : List VoteRow) (sessionSet : List SessionRow) (pid : Nat) : Nat :=
  (votes.filter (fun v => v.targetPlayerId == pid && v.rankScore == 1 &&
    sessionSet.any (fun s => s.id == v.sessionId))).length

/-- Spec: "count of Votes where rank_score == participant-count-of-
that-session, computed per-session", summed over the set. -/
def specKingCount (votes : List VoteRow) (sessionSet : List SessionRow) (pid : Nat) : Nat :=
  (sessionSet.map (fun s => (votes.filter (fun v =>
    v.targetPlayerId == pid && v.sessionId == s.id &&
      v.rankScore == s.participants.length)).length)).sum

/-- Spec: "count of sessions in sessionSet where player ∈ participants". -/
def specSessionsParticipated (sessionSet : List SessionRow) (pid : Nat) : Nat :=
  (sessionSet.filter (fun s => pid ∈ s.participants)).length

theorem voteScoreSum_map_id (votes : List VoteRow) (sessions : List SessionRow) (pid : Nat) :
    voteScoreSum votes pid (sessions.map (fun s => s.id)) = specScore votes sessions pid := by
  unfold voteScoreSum specScore
  congr 2
  apply List.filter_congr
  intro v _
  rw [contains_map_id_any]

theorem coneCountIn_map_id (votes : List VoteRow) (sessions : List SessionRow) (pid : Nat) :
    coneCountIn votes pid (sessions.map (fun s => s.id)) = specConeCount votes sessions pid := by
  unfold coneCountIn specConeCount
  congr 1
  apply List.filter_congr
  intro v _
  rw [contains_map_id_any]

theorem specScore_nil (votes : List VoteRow) (pid : Nat) :
    specScore votes [] pid = 0 := by
  simp [specScore]

theorem specConeCount_nil (votes : List VoteRow) (pid : Nat) :
    specConeCount votes [] pid = 0 := by
  simp [specConeCount]

theorem leaderRowFor_eq_spec (db : DB) (sessions : List SessionRow) (p : PlayerRow) :
    leaderRowFor db sessions p =
      ⟨p.id, p.name,
        specScore db.votes sessions p.id,
        specSessionsParticipated sessions p.id,
        specConeCount db.votes sessions p.id,
        specKingCount db.votes sessions p.id⟩ := by
  unfold leaderRowFor
  by_cases hse : sessions = []
  · subst hse
    simp [specScore_nil, specConeCount_nil, specKingCount, specSessionsParticipated]
  · have hne : ((sessions.map (fun s => s.id)).isEmpty) = false := by
      cases sessions with
      | nil => exact absurd rfl hse
      | cons a t => rfl
    simp only [hne, Bool.false_eq_true, if_false]
    congr 1
    · exact voteScoreSum_map_id db.votes sessions p.id
    · unfold specSessionsParticipated
      congr 1
      apply List.filter_congr
      intro s _
      simp
    · exact coneCountIn_map_id db.votes sessions p.id

/-- C3: over the filtered session set (game filter applied to the
session query, before aggregation), every player's leaderboard row
carries the spec's aggregates — summed score, cone count, per-session
king count, sessions participated — and the leaderboard list is a
permutation of the per-player rows sorted by score descending, with
ties kept in the deterministic player-table order (stability: the
sublist at each score value is exactly the unsorted one). -/
theorem claim_C3 (db : DB) (gid : Option Nat) :
    (∀ p ∈ db.players, leaderRowFor db (filteredSessions db gid) p =
      ⟨p.id, p.name,
        specScore db.votes (filteredSessions db gid) p.id,
        specSessionsParticipated (filteredSessions db gid) p.id,
        specConeCount db.votes (filteredSessions db gid) p.id,
        specKingCount db.votes (filteredSessions db gid) p.id⟩) ∧
    (stats_leaderboard db gid).Perm
      (db.players.map (leaderRowFor db (filteredSessions db gid))) ∧
    List.Sorted scoreDesc (stats_leaderboard db gid) ∧
    (∀ c, (stats_leaderboard db gid).filter (fun r => r.score == c) =
      (db.players.map (leaderRowFor db (filteredSessions db gid))).filter
        (fun r => r.score == c)) := by
  refine ⟨fun p _ => leaderRowFor_eq_spec db (filteredSessions db gid) p,
    List.perm_insertionSort scoreDesc _,
    List.sorted_insertionSort scoreDesc _,
    fun c => insertionSort_filter_key (fun r : LeaderRow => r.score) scoreDesc
      (fun _ _ => Iff.rfl) _ c⟩

/-- Witness for C3 on the finished §8 run, unfiltered, at player 1. -/
theorem claim_C3_witness :
    leaderRowFor exDB3 (filteredSessions exDB3 none) ⟨1, "Maor"⟩ =
      ⟨1, "Maor",
        specScore exDB3.votes (filteredSessions exDB3 none) 1,
        specSessionsParticipated (filteredSessions exDB3 none) 1,
        specConeCount exDB3.votes (filteredSessions exDB3 none) 1,
        specKingCount exDB3.votes (filteredSessions exDB3 none) 1⟩ :=
  (claim_C3 exDB3 none).1 ⟨1, "Maor"⟩ (by decide)

/-- C8: for every session the player participated in (within the
filter), `rank_in_session` is the 1-based position of the player in
the list of per-participant session scores ordered descending — the
ordering being the deterministic stable sort of the participant-order
list: it is sorted by score descending, is a permutation of the
per-participant scores, and ties keep participant order (the sublist
at each score value is the unsorted one). -/
theorem claim_C8 (db : DB) (gid : Option Nat) (pid : Nat) (s : SessionRow)
    (hs : s ∈ playerSessions db gid pid) :
    List.Sorted pairScoreDesc (sortedParticipantScores db s) ∧
    (sortedParticipantScores db s).Perm (participantScores db s) ∧
    (∀ c, (sortedParticipantScores db s).filter (fun pr => pr.2 == c) =
      (participantScores db s).filter (fun pr => pr.2 == c)) ∧
    ∃ i, (sortedParticipantScores db s).findIdx? (fun pr => pr.1 == pid) = some i ∧
      rank_in_session db s pid = i + 1 := by
  have hpid : pid ∈ s.participants := by
    unfold playerSessions at hs
    have := (List.mem_filter.mp hs).2
    simpa using this
  refine ⟨List.sorted_insertionSort pairScoreDesc _,
    List.perm_insertionSort pairScoreDesc _,
    fun c => insertionSort_filter_key (fun pr : Nat × Nat => pr.2) pairScoreDesc
      (fun _ _ => Iff.rfl) _ c, ?_⟩
  have hmem : (pid, sessionScore db.votes pid s.id) ∈ sortedParticipantScores db s := by
    rw [sortedParticipantScores, List.mem_insertionSort]
    exact List.mem_map.mpr ⟨pid, hpid, rfl⟩
  have hsome : ((sortedParticipantScores db s).findIdx? (fun pr => pr.1 == pid)).isSome := by
    rw [List.findIdx?_isSome, List.any_eq_true]
    exact ⟨(pid, sessionScore db.votes pid s.id), hmem, by simp⟩
  cases hfi : (sortedParticipantScores db s).findIdx? (fun pr => pr.1 == pid) with
  | none => rw [hfi] at hsome; exact absurd hsome (by simp)
  | some i =>
    refine ⟨i, rfl, ?_⟩
    unfold rank_in_session
    rw [hfi]

/-- Witness for C8: player 1's rank in the finished §8 session. -/
theorem claim_C8_witness :
    ∃ i, (sortedParticipantScores exDB3 ⟨1, 0, 1, 0, [1, 2, 3]⟩).findIdx?
        (fun pr => pr.1 == 1) = some i ∧
      rank_in_session exDB3 ⟨1, 0, 1, 0, [1, 2, 3]⟩ 1 = i + 1 :=
  (claim_C8 exDB3 none 1 ⟨1, 0, 1, 0, [1, 2, 3]⟩ (by decide)).2.2.2

/-- C9: the store invariant — every Vote row's voter is a participant
of its (existing) session — holds of the seed store and is preserved
by every operation; consequently a session's distinct voters are a
subset of its participants, and the auto-close superset test is
equivalent to set equality of voters and participants. -/
theorem claim_C9 (db : DB) :
    Inv initDB ∧
    (∀ op : Op, Inv db → Inv (applyOp db op)) ∧
    (∀ sid s, Inv db → findSession db sid = some s →
      (∀ x ∈ votersOf db.votes sid, x ∈ s.participants) ∧
      ((∀ p ∈ s.participants, p ∈ votersOf db.votes sid) ↔
        (∀ x, x ∈ votersOf db.votes sid ↔ x ∈ s.participants))) := by
  refine ⟨by decide, fun op h => inv_applyOp db op h, fun sid s hInv hfs => ?_⟩
  have hsub := voters_subset_participants hInv hfs
  refine ⟨hsub, ?_, ?_⟩
  · intro hsup x
    exact ⟨fun hx => hsub x hx, fun hx => hsup x hx⟩
  · intro hiff p hp
    exact (hiff p).mpr hp

/-- Witness for C9: the invariant survives a deletion applied to the
finished §8 run, and voter 1 of session 1 is one of its participants. -/
theorem claim_C9_witness :
    Inv (applyOp exDB3 (Op.delete 1)) ∧
    (1 : Nat) ∈ (⟨1, 0, 1, 0, [1, 2, 3]⟩ : SessionRow).participants :=
  ⟨(claim_C9 exDB3).2.1 (Op.delete 1) (by decide),
   ((claim_C9 exDB3).2.2 1 ⟨1, 0, 1, 0, [1, 2, 3]⟩ (by decide) (by decide)).1
     1 (by decide)⟩

/-! ## Lemmas for C10 (empty participant set) -/

theorem hasVoted_false_of_voters_nil {votes : List VoteRow} {sid vid : Nat}
    (h : votersOf votes sid = []) : hasVoted votes sid vid = false := by
  cases hvv : hasVoted votes sid vid with
  | false => rfl
  | true =>
    exfalso
    unfold hasVoted at hvv
    obtain ⟨v, hvmem, hvp⟩ := List.any_eq_true.mp hvv
    rw [Bool.and_eq_true] at hvp
    have : vid ∈ votersOf votes sid :=
      mem_votersOf.mpr ⟨v, hvmem, by simpa using hvp.1, by simpa using hvp.2⟩
    rw [h] at this
    exact absurd this (by simp)

theorem submit_vote_notAP {db : DB} {sid vid : Nat} {rks : List Nat} {s : SessionRow}
    (hs : findSession db sid = some s)
    (hg : gameExists db.games s.gameId = true)
    (ha : s.isActive ≠ 0)
    (hv : hasVoted db.votes sid vid = false)
    (hp : vid ∉ s.participants) :
    submit_vote db sid vid rks = (.notAParticipant, db) := by
  unfold submit_vote
  rw [hs]
  simp only [hg, Bool.not_true, Bool.false_eq_true, if_false]
  rw [if_neg (by simpa using ha), if_neg (by simp [hv]), if_pos (by simp [hp])]

theorem ballotVotes_sessionId {sid vid : Nat} {rks : List Nat} {firstId : Nat}
    {v : VoteRow} (hv : v ∈ ballotVotes sid vid rks firstId) : v.sessionId = sid := by
  unfold ballotVotes at hv
  obtain ⟨p, _, hp⟩ := List.mem_map.mp hv
  rw [← hp]

theorem votersOf_filter_nil {votes : List VoteRow} {q : VoteRow → Bool} {sid : Nat}
    (h : votersOf votes sid = []) : votersOf (votes.filter q) sid = [] := by
  rw [List.eq_nil_iff_forall_not_mem]
  intro x hx
  obtain ⟨v, hv, hvsid, hvx⟩ := mem_votersOf.mp hx
  have : x ∈ votersOf votes sid :=
    mem_votersOf.mpr ⟨v, List.mem_of_mem_filter hv, hvsid, hvx⟩
  rw [h] at this
  exact absurd this (by simp)

/-- The step-preserved configuration for C10: the invariant holds, the
id is below the counter, the session has no votes at all, and it is
either gone or still exactly the original (empty-participants) row. -/
def EmptyStays (s : SessionRow) (sid : Nat) (db : DB) : Prop :=
  Inv db ∧ sid < db.nextSessionId ∧ votersOf db.votes sid = [] ∧
    (findSession db sid = none ∨ findSession db sid = some s)

theorem emptyStays_step (s : SessionRow) (sid : Nat) (db : DB) (op : Op)
    (hemp : s.participants = [])
    (h : EmptyStays s sid db) : EmptyStays s sid (applyOp db op) := by
  obtain ⟨hInv, hlt, hvnil, hfind⟩ := h
  refine ⟨inv_applyOp db op hInv, ?_, ?_, ?_⟩
  · cases op with
    | create g ps now => exact Nat.lt_succ_of_lt hlt
    | submit sid2 vid rks =>
      rw [show applyOp db (.submit sid2 vid rks) = (submit_vote db sid2 vid rks).2 from rfl,
        submit_nextSessionId]
      exact hlt
    | delete sid2 =>
      rw [show applyOp db (.delete sid2) = delete_session db sid2 from rfl,
        delete_nextSessionId]
      exact hlt
  · cases op with
    | create g ps now => exact hvnil
    | submit sid2 vid rks =>
      rw [show applyOp db (.submit sid2 vid rks) = (submit_vote db sid2 vid rks).2 from rfl]
      by_cases hres : (submit_vote db sid2 vid rks).1 = .ok
      · obtain ⟨s2, hfs2, _, _, _, hp2, hdb⟩ :=
          submit_vote_ok_inversion (Prod.ext hres rfl)
        have hne : sid2 ≠ sid := by
          intro hcontra
          subst hcontra
          rcases hfind with hf | hf
          · rw [hf] at hfs2; exact absurd hfs2 (by simp)
          · rw [hf] at hfs2
            have hss : s2 = s := (Option.some.inj hfs2).symm
            rw [hss, hemp] at hp2
            exact absurd hp2 (by simp)
        simp only [hdb]
        have hvotes2 : (submitSuccessDB db sid2 vid rks s2).votes =
            db.votes ++ ballotVotes sid2 vid rks db.nextVoteId := rfl
        rw [hvotes2, List.eq_nil_iff_forall_not_mem]
        intro x hx
        rcases votersOf_append.mp hx with hx2 | hx2
        · rw [hvnil] at hx2; exact absurd hx2 (by simp)
        · obtain ⟨v, hv, hvsid, _⟩ := mem_votersOf.mp hx2
          exact hne (by rw [← ballotVotes_sessionId hv, hvsid])
      · rw [submit_vote_fail_eq hres]
        exact hvnil
    | delete sid2 =>
      rw [show applyOp db (.delete sid2) = delete_session db sid2 from rfl]
      unfold delete_session
      cases hfs2 : findSession db sid2 with
      | none => exact hvnil
      | some s0 => exact votersOf_filter_nil hvnil
  · cases op with
    | create g ps now =>
      rw [show applyOp db (.create g ps now) = (create_session db g ps now).1 from rfl]
      unfold findSession at hfind ⊢
      unfold create_session
      dsimp only
      rw [List.find?_append]
      rcases hfind with hf | hf
      · rw [hf]
        simp only [Option.none_or]
        left
        rw [List.find?_cons_of_neg _ (by simp [createdSession]; omega), List.find?_nil]
      · rw [hf]
        right
        rfl
    | submit sid2 vid rks =>
      rw [show applyOp db (.submit sid2 vid rks) = (submit_vote db sid2 vid rks).2 from rfl]
      by_cases hres : (submit_vote db sid2 vid rks).1 = .ok
      · obtain ⟨s2, hfs2, _, _, _, hp2, hdb⟩ :=
          submit_vote_ok_inversion (Prod.ext hres rfl)
        have hne : sid2 ≠ sid := by
          intro hcontra
          subst hcontra
          rcases hfind with hf | hf
          · rw [hf] at hfs2; exact absurd hfs2 (by simp)
          · rw [hf] at hfs2
            have hss : s2 = s := (Option.some.inj hfs2).symm
            rw [hss, hemp] at hp2
            exact absurd hp2 (by simp)
        simp only [hdb]
        have hsess := submitSuccessDB_sessions db sid2 vid rks s2
        unfold findSession at hfind ⊢
        rcases hsess with he | he
        · rw [he]
          exact hfind
        · rw [he, find?_map_comm _ (closeUpd sid2) (fun t => by rw [closeUpd_id]) db.sessions]
          rcases hfind with hf | hf
          · rw [hf]
            exact Or.inl rfl
          · rw [hf]
            right
            have : closeUpd sid2 s = s := by
              unfold closeUpd
              rw [if_neg]
              have hid : s.id = sid := by
                simpa using List.find?_some hf
              simp [hid, Ne.symm hne]
            simp [this]
      · rw [submit_vote_fail_eq hres]
        exact hfind
    | delete sid2 =>
      rw [show applyOp db (.delete sid2) = delete_session db sid2 from rfl]
      by_cases hne : sid = sid2
      · subst hne
        exact Or.inl (by
          have := sessionActive_delete_self db sid
          unfold sessionActive at this
          cases hfs : findSession (delete_session db sid) sid with
          | none => rfl
          | some u => rw [hfs] at this; exact absurd this (by simp))
      · unfold delete_session
        cases hfs2 : findSession db sid2 with
        | none => exact hfind
        | some s0 =>
          unfold findSession at hfind ⊢
          dsimp only
          rw [find?_filter_of_imp _ _ _ (fun a ha => by
            have : a.id = sid := by simpa using ha
            simp [this, hne])]
          exact hfind

theorem emptyStays_foldl (s : SessionRow) (sid : Nat) (db : DB) (ops : List Op)
    (hemp : s.participants = [])
    (h : EmptyStays s sid db) : EmptyStays s sid (ops.foldl applyOp db) := by
  induction ops generalizing db with
  | nil => exact h
  | cons op rest ih => exact ih (applyOp db op) (emptyStays_step s sid db op hemp h)

/-- C10: a session with an empty participant set (reachable, since
`create_session` resolves only the submitted player ids that exist)
accepts no ballot: it has no voters, every submission to it (with its
game present and the session active) fails as not-a-participant, and
under any sequence of operations it either gets deleted or survives
completely unchanged — never any votes, `is_active` never cleared. -/
theorem claim_C10 (db : DB) (sid : Nat) (s : SessionRow)
    (hInv : Inv db)
    (hs : findSession db sid = some s)
    (hempty : s.participants = []) :
    votersOf db.votes sid = [] ∧
    (gameExists db.games s.gameId = true → s.isActive ≠ 0 → ∀ vid rks,
      submit_vote db sid vid rks = (.notAParticipant, db)) ∧
    (∀ ops : List Op,
      findSession (ops.foldl applyOp db) sid = none ∨
      (findSession (ops.foldl applyOp db) sid = some s ∧
        votersOf (ops.foldl applyOp db).votes sid = [])) := by
  have hvnil : votersOf db.votes sid = [] := by
    rw [List.eq_nil_iff_forall_not_mem]
    intro x hx
    have := voters_subset_participants hInv hs x hx
    rw [hempty] at this
    exact absurd this (by simp)
  refine ⟨hvnil, ?_, ?_⟩
  · intro hg ha vid rks
    exact submit_vote_notAP hs hg ha (hasVoted_false_of_voters_nil hvnil)
      (by rw [hempty]; simp)
  · intro ops
    have hlt : sid < db.nextSessionId := by
      obtain ⟨hmem, hid⟩ := findSession_mem hs
      rw [← hid]
      exact hInv.1 s hmem
    have h := emptyStays_foldl s sid db ops hempty ⟨hInv, hlt, hvnil, Or.inr hs⟩
    rcases h.2.2.2 with hf | hf
    · exact Or.inl hf
    · exact Or.inr ⟨hf, h.2.2.1⟩

/-- Witness for C10: a session created for game 1 with only the
nonexistent player id 99 has an empty participant set; submissions
fail, and it survives a later unrelated run of operations unchanged. -/
theorem claim_C10_witness :
    votersOf (create_session initDB 1 [99] 0).1.votes 1 = [] ∧
    submit_vote (create_session initDB 1 [99] 0).1 1 7 [1, 2] =
      (.notAParticipant, (create_session initDB 1 [99] 0).1) ∧
    (findSession (List.foldl applyOp (create_session initDB 1 [99] 0).1
        [Op.submit 1 1 [1], Op.create 2 [1, 2] 5]) 1 = none ∨
      (findSession (List.foldl applyOp (create_session initDB 1 [99] 0).1
          [Op.submit 1 1 [1], Op.create 2 [1, 2] 5]) 1 = some ⟨1, 0, 1, 1, []⟩ ∧
        votersOf (List.foldl applyOp (create_session initDB 1 [99] 0).1
          [Op.submit 1 1 [1], Op.create 2 [1, 2] 5]).votes 1 = [])) := by
  have h := claim_C10 (create_session initDB 1 [99] 0).1 1 ⟨1, 0, 1, 1, []⟩
    (by decide) (by decide) (by decide)
  exact ⟨h.1, h.2.1 (by decide) (by decide) 7 [1, 2],
    h.2.2 [Op.submit 1 1 [1], Op.create 2 [1, 2] 5]⟩

end WhosTheCone
